import Mathlib

/-!
Shallow embedding of the client-resident request-interception and
authenticated-proxy-routing agent of the `simplesalt/apps` repository
(service workers `auth-proxy-sw.js` and `api-proxy-sw.js`, registration
glue `sw-register.js`), together with theorems settling the spec claims.

Strings are modelled with Lean `String`; JavaScript `String.prototype`
operations `endsWith`, `includes`, `startsWith` are embedded as the
corresponding operations on the character lists (`List.isSuffixOf`,
`List.isInfixOf`, `List.isPrefixOf`), which agree with the JavaScript
semantics on the inputs in play.  Web `Headers` objects normalise header
names to lower case and keep one entry per name; they are embedded as
association lists whose `set` operation lower-cases the name and replaces
in place.
-/

/-- A routing rule, as parsed from `routing.json` (`{domain, authType,
secretName?, destination?}`). -/
structure RoutingRule where
  domain : String
  authType : Nat
  secretName : Option String := none
  destination : Option String := none
deriving DecidableEq

/-- JavaScript `hay.includes(needle)`: `needle` occurs in `hay` as a
contiguous substring. -/
def isSubstr (needle : List Char) : List Char → Bool
  | [] => needle.isEmpty
  | c :: rest => needle.isPrefixOf (c :: rest) || isSubstr needle rest

/-- The match predicate of the fetch listeners of `auth-proxy-sw.js` and
`api-proxy-sw.js` (verbatim in both):
`url.hostname === r.domain || url.hostname.endsWith('.' + r.domain) ||
 url.hostname.includes(r.domain)`. -/
def ruleMatches (hostname : String) (r : RoutingRule) : Bool :=
  hostname == r.domain
    || (("." ++ r.domain).data.isSuffixOf hostname.data)
    || (isSubstr r.domain.data hostname.data)

/-- `routingRules.find(r => ...)`: scan of the routing table in order,
returning the first rule matching the hostname. -/
def findMatchingRule (hostname : String) : List RoutingRule → Option RoutingRule
  | [] => none
  | r :: rest => if ruleMatches hostname r then some r else findMatchingRule hostname rest

theorem findMatchingRule_some_spec (hostname : String) (table : List RoutingRule)
    (r : RoutingRule) (h : findMatchingRule hostname table = some r) :
    ∃ pre post, table = pre ++ r :: post ∧ ruleMatches hostname r = true ∧
      ∀ r' ∈ pre, ruleMatches hostname r' = false := by
  induction table with
  | nil => simp [findMatchingRule] at h
  | cons a rest ih =>
    cases ha : ruleMatches hostname a with
    | true =>
      simp [findMatchingRule, ha] at h
      subst h
      exact ⟨[], rest, rfl, ha, by simp⟩
    | false =>
      simp [findMatchingRule, ha] at h
      obtain ⟨pre, post, hsplit, hr, hpre⟩ := ih h
      refine ⟨a :: pre, post, by simp [hsplit], hr, ?_⟩
      intro r' hr'
      rcases List.mem_cons.mp hr' with h1 | h1
      · subst h1; exact ha
      · exact hpre r' h1

theorem findMatchingRule_none_spec (hostname : String) (table : List RoutingRule) :
    findMatchingRule hostname table = none ↔
      ∀ r ∈ table, ruleMatches hostname r = false := by
  induction table with
  | nil => simp [findMatchingRule]
  | cons a rest ih =>
    by_cases ha : ruleMatches hostname a = true
    · simp [findMatchingRule, ha]
    · simp only [Bool.not_eq_true] at ha
      simp [findMatchingRule, ha, ih]

/-- C1: the matcher scans rules in table order and returns the first rule
whose domain equals the hostname, or is a proper-subdomain suffix of it
(hostname ends with `"." + domain`), or is contained in the hostname as a
substring; if no rule matches it returns none.  For the table
`[{domain:"a.b.com"}, {domain:"b.com"}]` in that order, hostname
`"a.b.com"` matches the first rule. -/
theorem matcher_first_match_in_table_order (hostname : String) (table : List RoutingRule) :
    (∀ r, findMatchingRule hostname table = some r →
      (hostname = r.domain
        ∨ ("." ++ r.domain).data.isSuffixOf hostname.data = true
        ∨ isSubstr r.domain.data hostname.data = true) ∧
      ∃ pre post, table = pre ++ r :: post ∧
        ∀ r' ∈ pre, ruleMatches hostname r' = false) ∧
    (findMatchingRule hostname table = none ↔
      ∀ r ∈ table, ruleMatches hostname r = false) ∧
    findMatchingRule "a.b.com"
        [{ domain := "a.b.com", authType := 2 }, { domain := "b.com", authType := 2 }] =
      some { domain := "a.b.com", authType := 2 } := by
  refine ⟨?_, findMatchingRule_none_spec hostname table, by decide⟩
  intro r h
  obtain ⟨pre, post, hsplit, hr, hpre⟩ := findMatchingRule_some_spec hostname table r h
  constructor
  · simp only [ruleMatches, Bool.or_eq_true, beq_iff_eq] at hr
    tauto
  · exact ⟨pre, post, hsplit, hpre⟩

/-! ## Headers, requests, and the fetch-listener dispatch -/

/-- JavaScript `String.prototype.toLowerCase` on the ASCII header names in
play, character by character. -/
def toLowerStr (s : String) : String := String.mk (s.data.map Char.toLower)

/-- Web `Headers.set`, on the association-list embedding: header names are
case-insensitive and normalised to lower case; `set` replaces an existing
entry in place, else appends. -/
def headersSet (hs : List (String × String)) (name value : String) :
    List (String × String) :=
  let n := toLowerStr name
  if hs.any (fun p => p.1 == n) then
    hs.map (fun p => if p.1 == n then (n, value) else p)
  else hs ++ [(n, value)]

/-- Web `Headers.get` (case-insensitive lookup). -/
def headersGet (hs : List (String × String)) (name : String) : Option String :=
  (hs.find? (fun p => p.1 == toLowerStr name)).map (fun p => p.2)

/-- The data of one outbound request as seen by the fetch listener:
the components of `new URL(event.request.url)` plus method, headers and
body of `event.request`. -/
structure RequestInfo where
  protocol : String
  origin : String
  hostname : String
  url : String
  method : String
  headers : List (String × String)
  body : Option String := none
deriving DecidableEq

/-- What the fetch listener decides for a request: return without calling
`event.respondWith` (the browser issues the request untouched), or
intercept it under a matched rule. -/
inductive FetchAction where
  | passthrough
  | intercept (rule : RoutingRule)
deriving DecidableEq

/-- The guard structure of the fetch listener (identical in
`auth-proxy-sw.js` lines 106-128 and `api-proxy-sw.js` lines 112-133):
skip non-HTTP and same-origin requests, skip when no rules are loaded,
and intercept only a matched rule with `authType === 2 || authType === 3`. -/
def fetchDispatch (swOrigin : String) (rules : List RoutingRule)
    (req : RequestInfo) : FetchAction :=
  if !("http".data.isPrefixOf req.protocol.data) || req.origin == swOrigin then
    .passthrough
  else if rules.length == 0 then
    .passthrough
  else
    match findMatchingRule req.hostname rules with
    | some r =>
        if r.authType == 2 || r.authType == 3 then .intercept r else .passthrough
    | none => .passthrough

/-- `config.proxyWorkerUrl` of both service workers. -/
def proxyWorkerUrl : String := "https://api.simplesalt.company/nuywznihg08edfslfk29"

/-- The header-filter predicate of the copy loop (on the lower-cased key):
drop keys starting with `cf-` or `x-` and the keys `host`, `origin`, `referer`. -/
def isSafeHeader (lowerKey : String) : Bool :=
  !("cf-".data.isPrefixOf lowerKey.data)
    && !("x-".data.isPrefixOf lowerKey.data)
    && lowerKey != "host" && lowerKey != "origin" && lowerKey != "referer"

/-- The copy loop of both workers: iterate the original request's headers
and `set` those whose lower-cased key passes `isSafeHeader` onto a fresh
`Headers`. -/
def copySafeHeaders (orig : List (String × String)) : List (String × String) :=
  orig.foldl
    (fun acc p => if isSafeHeader (toLowerStr p.1) then headersSet acc p.1 p.2 else acc) []

/-- Header construction of `auth-proxy-sw.js` lines 134-156: copy safe
headers, then set `X-Original-URL`, `X-Auth-Type`, `X-Secret-Name` (when
the rule has one), and finally `Origin` to the worker's own origin. -/
def buildProxyHeadersAuth (swOrigin : String) (r : RoutingRule)
    (originalUrl : String) (orig : List (String × String)) :
    List (String × String) :=
  let copied := copySafeHeaders orig
  let h1 := headersSet copied "X-Original-URL" originalUrl
  let h2 := headersSet h1 "X-Auth-Type" (toString r.authType)
  let h3 :=
    match r.secretName with
    | some s => headersSet h2 "X-Secret-Name" s
    | none => h2
  headersSet h3 "Origin" swOrigin

/-- The request issued to the trusted proxy endpoint. -/
structure ProxyRequest where
  url : String
  method : String
  headers : List (String × String)
  body : Option String
deriving DecidableEq

/-- The proxied request built by `auth-proxy-sw.js`: method preserved,
headers from `buildProxyHeadersAuth`, body captured only for non-GET/HEAD
methods, target the fixed proxy endpoint. -/
def buildProxyRequestAuth (swOrigin : String) (r : RoutingRule)
    (req : RequestInfo) : ProxyRequest :=
  { url := proxyWorkerUrl
    method := req.method
    headers := buildProxyHeadersAuth swOrigin r req.url req.headers
    body := if req.method != "GET" && req.method != "HEAD" then req.body else none }

/-- The request that actually reaches the network: the original one
unmodified (no `respondWith`), or the transformed proxy request. -/
inductive RequestOut where
  | direct (req : RequestInfo)
  | proxied (preq : ProxyRequest)
deriving DecidableEq

/-- One request through the fetch listener of `auth-proxy-sw.js`. -/
def processRequest (swOrigin : String) (rules : List RoutingRule)
    (req : RequestInfo) : RequestOut :=
  match fetchDispatch swOrigin rules req with
  | .passthrough => .direct req
  | .intercept r => .proxied (buildProxyRequestAuth swOrigin r req)

/-- The hardcoded fallback table of `auth-proxy-sw.js` (`loadFallbackConfig`). -/
def fallbackRulesAuth : List RoutingRule :=
  [{ domain := "api.hubapi.com", authType := 2, secretName := some "6nr8n2i1ve1rdnku8d1t" },
   { domain := "api.notion.com", authType := 3, secretName := some "fhwowggbohorrud2kj16" }]

theorem fetchDispatch_passthrough_of_guard (swOrigin : String)
    (rules : List RoutingRule) (req : RequestInfo)
    (h : req.origin = swOrigin
      ∨ "http".data.isPrefixOf req.protocol.data = false
      ∨ findMatchingRule req.hostname rules = none
      ∨ ∃ r, findMatchingRule req.hostname rules = some r ∧ r.authType = 1) :
    fetchDispatch swOrigin rules req = .passthrough := by
  unfold fetchDispatch
  rcases h with h | h | h | ⟨r, hr, h1⟩
  · simp [h]
  · simp [h]
  · split
    · rfl
    · split
      · rfl
      · simp [h]
  · split
    · rfl
    · split
      · rfl
      · simp [hr, h1]

/-- C2: for every outbound request whose target origin equals the hosting
context's origin, or whose protocol is not HTTP-family, or whose hostname
matches no rule, or matches a rule with `authType = 1`, the agent is a
no-op: the request passes through unmodified. -/
theorem non_matching_traffic_passes_through (swOrigin : String)
    (rules : List RoutingRule) (req : RequestInfo)
    (h : req.origin = swOrigin
      ∨ "http".data.isPrefixOf req.protocol.data = false
      ∨ findMatchingRule req.hostname rules = none
      ∨ ∃ r, findMatchingRule req.hostname rules = some r ∧ r.authType = 1) :
    processRequest swOrigin rules req = .direct req := by
  simp [processRequest, fetchDispatch_passthrough_of_guard swOrigin rules req h]

theorem non_matching_traffic_passes_through_witness :
    findMatchingRule "example.com" fallbackRulesAuth = none ∧
    processRequest "https://apps.simplesalt.company" fallbackRulesAuth
        { protocol := "https:", origin := "https://example.com",
          hostname := "example.com", url := "https://example.com/",
          method := "GET", headers := [] } =
      .direct
        { protocol := "https:", origin := "https://example.com",
          hostname := "example.com", url := "https://example.com/",
          method := "GET", headers := [] } :=
  ⟨by decide,
   non_matching_traffic_passes_through "https://apps.simplesalt.company"
     fallbackRulesAuth _ (Or.inr (Or.inr (Or.inl (by decide))))⟩

/-- C10: with an empty routing table (in particular in the window after
activation before any configuration is loaded) the agent intercepts
nothing: every request proceeds exactly as if the agent were absent, even
when its hostname matches a rule of the documented fallback table. -/
theorem empty_table_intercepts_nothing (swOrigin : String) (req : RequestInfo) :
    processRequest swOrigin [] req = .direct req ∧
    (findMatchingRule "api.hubapi.com" fallbackRulesAuth).isSome = true ∧
    processRequest "https://studio.plasmic.app" []
        { protocol := "https:", origin := "https://api.hubapi.com",
          hostname := "api.hubapi.com", url := "https://api.hubapi.com/crm",
          method := "GET", headers := [] } =
      .direct
        { protocol := "https:", origin := "https://api.hubapi.com",
          hostname := "api.hubapi.com", url := "https://api.hubapi.com/crm",
          method := "GET", headers := [] } := by
  refine ⟨?_, by decide, by decide⟩
  have hd : fetchDispatch swOrigin [] req = .passthrough := by
    unfold fetchDispatch
    split
    · rfl
    · simp
  simp [processRequest, hd]

/-! ## Lemmas about the header operations -/

theorem headersSet_of_not_mem (hs : List (String × String)) (n v : String)
    (h : hs.any (fun p => p.1 == toLowerStr n) = false) :
    headersSet hs n v = hs ++ [(toLowerStr n, v)] := by
  simp [headersSet, h]

theorem headersSet_of_mem (hs : List (String × String)) (n v : String)
    (h : hs.any (fun p => p.1 == toLowerStr n) = true) :
    headersSet hs n v =
      hs.map (fun p => if p.1 == toLowerStr n then (toLowerStr n, v) else p) := by
  simp [headersSet, h]

theorem find?_map_replace_self (m v : String) :
    ∀ hs : List (String × String), hs.any (fun p => p.1 == m) = true →
      (hs.map (fun p => if p.1 == m then (m, v) else p)).find?
        (fun p => p.1 == m) = some (m, v) := by
  intro hs
  induction hs with
  | nil => simp
  | cons q rest ih =>
    intro h
    cases hq : (q.1 == m) with
    | true =>
      rw [List.map_cons, if_pos hq, List.find?_cons_of_pos _ (by simp)]
    | false =>
      rw [List.map_cons, if_neg (by simp [hq]),
        List.find?_cons_of_neg _ (by simp [hq])]
      exact ih (by simpa [hq] using h)

theorem find?_map_replace_other (m v qq : String) (hne : qq ≠ m) :
    ∀ hs : List (String × String),
      (hs.map (fun p => if p.1 == m then (m, v) else p)).find? (fun p => p.1 == qq)
        = hs.find? (fun p => p.1 == qq) := by
  intro hs
  induction hs with
  | nil => rfl
  | cons q rest ih =>
    cases hq : (q.1 == m) with
    | true =>
      have hq' : q.1 = m := by simpa using hq
      have hmq : (m == qq) = false := by
        simp only [beq_eq_false_iff_ne, ne_eq]
        exact fun h => hne h.symm
      simpa [List.find?, hq, hq', hmq] using ih
    | false =>
      cases hpq : (q.1 == qq) with
      | true => simp [List.find?, hq, hpq]
      | false =>
        simp only [List.map_cons, List.find?, hq, hpq, Bool.false_eq_true, if_false]
        exact ih

theorem headersGet_set_self (hs : List (String × String)) (n v : String) :
    headersGet (headersSet hs n v) n = some v := by
  unfold headersGet
  cases hany : hs.any (fun p => p.1 == toLowerStr n) with
  | false =>
    rw [headersSet_of_not_mem hs n v hany, List.find?_append]
    have h1 : hs.find? (fun p => p.1 == toLowerStr n) = none := by
      rw [List.find?_eq_none]
      intro p hp hc
      have : hs.any (fun p => p.1 == toLowerStr n) = true :=
        List.any_eq_true.mpr ⟨p, hp, hc⟩
      rw [this] at hany
      cases hany
    rw [h1, Option.none_or, List.find?_cons_of_pos _ (by simp)]
    rfl
  | true =>
    rw [headersSet_of_mem hs n v hany,
      find?_map_replace_self (toLowerStr n) v hs hany]
    rfl

theorem headersGet_set_other (hs : List (String × String)) (n v q : String)
    (hne : toLowerStr q ≠ toLowerStr n) :
    headersGet (headersSet hs n v) q = headersGet hs q := by
  unfold headersGet
  cases hany : hs.any (fun p => p.1 == toLowerStr n) with
  | false =>
    rw [headersSet_of_not_mem hs n v hany, List.find?_append]
    have h2 : [(toLowerStr n, v)].find? (fun p => p.1 == toLowerStr q) = none := by
      rw [List.find?_eq_none]
      intro p hp
      have hp' : p = (toLowerStr n, v) := by simpa using hp
      rw [hp']
      show ¬(toLowerStr n == toLowerStr q) = true
      simp only [beq_iff_eq]
      exact fun h => hne h.symm
    rw [h2, Option.or_none]
  | true =>
    rw [headersSet_of_mem hs n v hany,
      find?_map_replace_other (toLowerStr n) v (toLowerStr q) hne hs]

theorem mem_headersSet (hs : List (String × String)) (n v : String)
    (p : String × String) (hp : p ∈ headersSet hs n v) :
    p ∈ hs ∨ p.1 = toLowerStr n := by
  simp only [headersSet] at hp
  split at hp
  · rcases List.mem_map.mp hp with ⟨a, ha, hfa⟩
    by_cases hm : (a.1 == toLowerStr n) = true
    · rw [if_pos hm] at hfa
      right
      rw [← hfa]
    · rw [if_neg hm] at hfa
      left
      rw [← hfa]
      exact ha
  · rcases List.mem_append.mp hp with h | h
    · exact Or.inl h
    · right
      have : p = (toLowerStr n, v) := by simpa using h
      rw [this]

theorem copy_foldl_mem_safe :
    ∀ (l acc : List (String × String)),
      (∀ p ∈ acc, isSafeHeader p.1 = true) →
      ∀ p ∈ l.foldl
        (fun acc p => if isSafeHeader (toLowerStr p.1) then headersSet acc p.1 p.2 else acc)
        acc, isSafeHeader p.1 = true := by
  intro l
  induction l with
  | nil =>
    intro acc hacc p hp
    rw [List.foldl_nil] at hp
    exact hacc p hp
  | cons q rest ih =>
    intro acc hacc p hp
    rw [List.foldl_cons] at hp
    cases hq : isSafeHeader (toLowerStr q.1) with
    | true =>
      rw [if_pos hq] at hp
      refine ih (headersSet acc q.1 q.2) ?_ p hp
      intro t ht
      rcases mem_headersSet acc q.1 q.2 t ht with h | h
      · exact hacc t h
      · rw [h]
        exact hq
    | false =>
      rw [if_neg (by simp [hq])] at hp
      exact ih acc hacc p hp

theorem copySafeHeaders_mem_safe (orig : List (String × String)) :
    ∀ p ∈ copySafeHeaders orig, isSafeHeader p.1 = true := by
  unfold copySafeHeaders
  exact copy_foldl_mem_safe orig [] (by simp)

theorem headersGet_copySafeHeaders_unsafe (orig : List (String × String))
    (q : String) (hq : isSafeHeader (toLowerStr q) = false) :
    headersGet (copySafeHeaders orig) q = none := by
  have hnone : (copySafeHeaders orig).find? (fun p => p.1 == toLowerStr q) = none := by
    rw [List.find?_eq_none]
    intro p hp hc
    have hsafe := copySafeHeaders_mem_safe orig p hp
    have hpq : p.1 = toLowerStr q := by simpa using hc
    rw [hpq, hq] at hsafe
    cases hsafe
  unfold headersGet
  rw [hnone]
  rfl

theorem copy_foldl_eq_filter :
    ∀ (l acc : List (String × String)),
      (∀ p ∈ l, toLowerStr p.1 = p.1) →
      (∀ p ∈ l, ∀ t ∈ acc, p.1 ≠ t.1) →
      (l.map Prod.fst).Nodup →
      l.foldl
        (fun acc p => if isSafeHeader (toLowerStr p.1) then headersSet acc p.1 p.2 else acc)
        acc = acc ++ l.filter (fun p => isSafeHeader p.1) := by
  intro l
  induction l with
  | nil =>
    intro acc _ _ _
    simp
  | cons q rest ih =>
    intro acc hnorm hdisj hnodup
    rw [List.map_cons, List.nodup_cons] at hnodup
    have hq_norm : toLowerStr q.1 = q.1 := hnorm q (by simp)
    rw [List.foldl_cons]
    cases hq : isSafeHeader q.1 with
    | true =>
      have hcond : isSafeHeader (toLowerStr q.1) = true := by rw [hq_norm]; exact hq
      rw [if_pos hcond]
      have hany : acc.any (fun p => p.1 == toLowerStr q.1) = false := by
        rw [List.any_eq_false]
        intro t ht hc
        have : t.1 = toLowerStr q.1 := by simpa using hc
        rw [hq_norm] at this
        exact hdisj q (by simp) t ht this.symm
      rw [headersSet_of_not_mem acc q.1 q.2 hany, hq_norm]
      have hrest :
          rest.foldl
            (fun acc p => if isSafeHeader (toLowerStr p.1) then headersSet acc p.1 p.2 else acc)
            (acc ++ [(q.1, q.2)])
            = (acc ++ [(q.1, q.2)]) ++ rest.filter (fun p => isSafeHeader p.1) := by
        refine ih (acc ++ [(q.1, q.2)]) (fun p hp => hnorm p (by simp [hp])) ?_ hnodup.2
        intro p hp t ht
        rcases List.mem_append.mp ht with h | h
        · exact hdisj p (by simp [hp]) t h
        · have ht' : t = (q.1, q.2) := by simpa using h
          rw [ht']
          intro hc
          exact hnodup.1 (hc ▸ List.mem_map.mpr ⟨p, hp, rfl⟩)
      rw [hrest]
      simp [List.filter_cons, hq]
    | false =>
      have hcond : isSafeHeader (toLowerStr q.1) = false := by rw [hq_norm]; exact hq
      rw [if_neg (by simp [hcond])]
      rw [ih acc (fun p hp => hnorm p (by simp [hp]))
        (fun p hp t ht => hdisj p (by simp [hp]) t ht) hnodup.2]
      rw [List.filter_cons_of_neg (by simp [hq])]

theorem copySafeHeaders_eq_filter (orig : List (String × String))
    (hnorm : ∀ p ∈ orig, toLowerStr p.1 = p.1)
    (hnodup : (orig.map Prod.fst).Nodup) :
    copySafeHeaders orig = orig.filter (fun p => isSafeHeader p.1) := by
  unfold copySafeHeaders
  simpa using copy_foldl_eq_filter orig [] hnorm (by simp) hnodup

theorem find?_assoc_of_mem :
    ∀ (l : List (String × String)) (n v : String),
      (l.map Prod.fst).Nodup → (n, v) ∈ l →
      l.find? (fun p => p.1 == n) = some (n, v) := by
  intro l
  induction l with
  | nil => simp
  | cons q rest ih =>
    intro n v hnodup hmem
    rw [List.map_cons, List.nodup_cons] at hnodup
    rcases List.mem_cons.mp hmem with h | h
    · rw [← h]
      exact List.find?_cons_of_pos _ (by simp)
    · have hqn : q.1 ≠ n := by
        intro he
        exact hnodup.1 (he ▸ List.mem_map.mpr ⟨(n, v), h, rfl⟩)
      rw [List.find?_cons_of_neg _ (by simp [hqn])]
      exact ih n v hnodup.2 h

theorem headersGet_copySafeHeaders_safe (orig : List (String × String))
    (hnorm : ∀ p ∈ orig, toLowerStr p.1 = p.1)
    (hnodup : (orig.map Prod.fst).Nodup)
    (n v : String) (hmem : (n, v) ∈ orig) (hsafe : isSafeHeader n = true) :
    headersGet (copySafeHeaders orig) n = some v := by
  unfold headersGet
  rw [copySafeHeaders_eq_filter orig hnorm hnodup, hnorm (n, v) hmem]
  have hsub : ((orig.filter (fun p => isSafeHeader p.1)).map Prod.fst).Nodup := by
    refine List.Nodup.sublist ?_ hnodup
    exact (List.filter_sublist orig).map Prod.fst
  rw [find?_assoc_of_mem _ n v hsub (List.mem_filter.mpr ⟨hmem, hsafe⟩)]
  rfl

/-- C3: for every intercepted request the forwarded header set is derived
from the original headers excluding every header whose name begins with a
reserved internal prefix (`cf-`, `x-`) or equals `host`, `origin` or
`referer`, and carries injected headers `X-Original-URL` (the original
fully-qualified URL), `X-Auth-Type` (the rule's authType stringified) and,
when the rule's secretName is set, `X-Secret-Name`. -/
theorem forwarded_headers_filtered_and_injected (swOrigin originalUrl : String)
    (r : RoutingRule) (orig : List (String × String)) :
    headersGet (buildProxyHeadersAuth swOrigin r originalUrl orig) "X-Original-URL"
      = some originalUrl ∧
    headersGet (buildProxyHeadersAuth swOrigin r originalUrl orig) "X-Auth-Type"
      = some (toString r.authType) ∧
    (∀ s, r.secretName = some s →
      headersGet (buildProxyHeadersAuth swOrigin r originalUrl orig) "X-Secret-Name"
        = some s) ∧
    (∀ q, isSafeHeader (toLowerStr q) = false →
      toLowerStr q ≠ "x-original-url" → toLowerStr q ≠ "x-auth-type" →
      toLowerStr q ≠ "x-secret-name" → toLowerStr q ≠ "origin" →
      headersGet (buildProxyHeadersAuth swOrigin r originalUrl orig) q = none) ∧
    ((∀ p ∈ orig, toLowerStr p.1 = p.1) → (orig.map Prod.fst).Nodup →
      ∀ n v, (n, v) ∈ orig → isSafeHeader n = true →
        headersGet (buildProxyHeadersAuth swOrigin r originalUrl orig) n = some v) := by
  cases hsec : r.secretName with
  | none =>
    simp only [buildProxyHeadersAuth, hsec]
    refine ⟨?_, ?_, ?_, ?_, ?_⟩
    · rw [headersGet_set_other _ _ _ _ (by decide),
        headersGet_set_other _ _ _ _ (by decide), headersGet_set_self]
    · rw [headersGet_set_other _ _ _ _ (by decide), headersGet_set_self]
    · intro s hs
      exact Option.noConfusion hs
    · intro q hq h1 h2 h3 h4
      have e4 : toLowerStr q ≠ toLowerStr "Origin" := h4
      have e2 : toLowerStr q ≠ toLowerStr "X-Auth-Type" := h2
      have e1 : toLowerStr q ≠ toLowerStr "X-Original-URL" := h1
      rw [headersGet_set_other _ _ _ _ e4, headersGet_set_other _ _ _ _ e2,
        headersGet_set_other _ _ _ _ e1]
      exact headersGet_copySafeHeaders_unsafe orig q hq
    · intro hnorm hnodup n v hmem hsafe
      have hn_norm : toLowerStr n = n := hnorm (n, v) hmem
      have key : ∀ m : String, isSafeHeader (toLowerStr m) = false →
          toLowerStr n ≠ toLowerStr m := by
        intro m hm hc
        rw [hn_norm] at hc
        rw [hc, hm] at hsafe
        exact Bool.noConfusion hsafe
      rw [headersGet_set_other _ _ _ _ (key "Origin" (by decide)),
        headersGet_set_other _ _ _ _ (key "X-Auth-Type" (by decide)),
        headersGet_set_other _ _ _ _ (key "X-Original-URL" (by decide))]
      exact headersGet_copySafeHeaders_safe orig hnorm hnodup n v hmem hsafe
  | some s =>
    simp only [buildProxyHeadersAuth, hsec]
    refine ⟨?_, ?_, ?_, ?_, ?_⟩
    · rw [headersGet_set_other _ _ _ _ (by decide),
        headersGet_set_other _ _ _ _ (by decide),
        headersGet_set_other _ _ _ _ (by decide), headersGet_set_self]
    · rw [headersGet_set_other _ _ _ _ (by decide),
        headersGet_set_other _ _ _ _ (by decide), headersGet_set_self]
    · intro s' hs'
      have hss : s = s' := by simpa using hs'
      rw [← hss, headersGet_set_other _ _ _ _ (by decide), headersGet_set_self]
    · intro q hq h1 h2 h3 h4
      have e4 : toLowerStr q ≠ toLowerStr "Origin" := h4
      have e3 : toLowerStr q ≠ toLowerStr "X-Secret-Name" := h3
      have e2 : toLowerStr q ≠ toLowerStr "X-Auth-Type" := h2
      have e1 : toLowerStr q ≠ toLowerStr "X-Original-URL" := h1
      rw [headersGet_set_other _ _ _ _ e4, headersGet_set_other _ _ _ _ e3,
        headersGet_set_other _ _ _ _ e2, headersGet_set_other _ _ _ _ e1]
      exact headersGet_copySafeHeaders_unsafe orig q hq
    · intro hnorm hnodup n v hmem hsafe
      have hn_norm : toLowerStr n = n := hnorm (n, v) hmem
      have key : ∀ m : String, isSafeHeader (toLowerStr m) = false →
          toLowerStr n ≠ toLowerStr m := by
        intro m hm hc
        rw [hn_norm] at hc
        rw [hc, hm] at hsafe
        exact Bool.noConfusion hsafe
      rw [headersGet_set_other _ _ _ _ (key "Origin" (by decide)),
        headersGet_set_other _ _ _ _ (key "X-Secret-Name" (by decide)),
        headersGet_set_other _ _ _ _ (key "X-Auth-Type" (by decide)),
        headersGet_set_other _ _ _ _ (key "X-Original-URL" (by decide))]
      exact headersGet_copySafeHeaders_safe orig hnorm hnodup n v hmem hsafe

theorem forwarded_headers_filtered_and_injected_witness :
    headersGet
        (buildProxyHeadersAuth "https://apps.simplesalt.company"
          { domain := "api.hubapi.com", authType := 2, secretName := some "S1" }
          "https://api.hubapi.com/y"
          [("accept", "application/json"), ("host", "api.hubapi.com"), ("x-trace", "t")])
        "X-Auth-Type" = some "2" ∧
    headersGet
        (buildProxyHeadersAuth "https://apps.simplesalt.company"
          { domain := "api.hubapi.com", authType := 2, secretName := some "S1" }
          "https://api.hubapi.com/y"
          [("accept", "application/json"), ("host", "api.hubapi.com"), ("x-trace", "t")])
        "X-Secret-Name" = some "S1" ∧
    headersGet
        (buildProxyHeadersAuth "https://apps.simplesalt.company"
          { domain := "api.hubapi.com", authType := 2, secretName := some "S1" }
          "https://api.hubapi.com/y"
          [("accept", "application/json"), ("host", "api.hubapi.com"), ("x-trace", "t")])
        "host" = none ∧
    headersGet
        (buildProxyHeadersAuth "https://apps.simplesalt.company"
          { domain := "api.hubapi.com", authType := 2, secretName := some "S1" }
          "https://api.hubapi.com/y"
          [("accept", "application/json"), ("host", "api.hubapi.com"), ("x-trace", "t")])
        "accept" = some "application/json" := by
  have h := forwarded_headers_filtered_and_injected "https://apps.simplesalt.company"
    "https://api.hubapi.com/y"
    { domain := "api.hubapi.com", authType := 2, secretName := some "S1" }
    [("accept", "application/json"), ("host", "api.hubapi.com"), ("x-trace", "t")]
  refine ⟨h.2.1.trans (by decide), h.2.2.1 "S1" rfl, ?_, ?_⟩
  · exact h.2.2.2.1 "host" (by decide) (by decide) (by decide) (by decide) (by decide)
  · exact h.2.2.2.2 (by decide) (by decide) "accept" "application/json"
      (by decide) (by decide)

/-! ## Config loading, reload, and the control channel -/

/-- Outcome of one fetch of the routing configuration, as the loaders
observe it: the response arrived (with its `response.ok` flag) and the
body parsed as a rule list; the response arrived but JSON parsing threw;
or the fetch itself rejected with a network error. -/
inductive ConfigFetchOutcome where
  | success (ok : Bool) (rules : List RoutingRule)
  | malformed (ok : Bool) (msg : String)
  | netError (msg : String)
deriving DecidableEq

/-- The hardcoded fallback table of `api-proxy-sw.js` (`loadFallbackConfig`). -/
def fallbackRulesApi : List RoutingRule :=
  [{ domain := "api.google.com", authType := 1 },
   { domain := "api.hubapi.com", authType := 2, secretName := some "6nr8n2i1ve1rdnku8d1t" },
   { domain := "api.notion.com", authType := 3, secretName := some "fhwowggbohorrud2kj16" }]

/-- `loadRoutingConfig` of `auth-proxy-sw.js` (lines 73-103): the fetched
rules are installed only when `response.ok` holds and the body parses;
every other outcome (non-2xx, malformed JSON, network error) runs
`loadFallbackConfig`, which installs `fallbackRulesAuth`.  The promise
itself always resolves. -/
def loadRoutingConfigAuth : ConfigFetchOutcome → List RoutingRule
  | .success true rules => rules
  | _ => fallbackRulesAuth

/-- The routing-table state transition of the auth worker on a reload:
the global `routingRules` is overwritten with whatever
`loadRoutingConfig` produced, regardless of the current table. -/
def authReloadStep (current : List RoutingRule) (outcome : ConfigFetchOutcome) :
    List RoutingRule :=
  loadRoutingConfigAuth outcome

/-- A JSON scalar value, for reply messages and response bodies. -/
inductive JVal where
  | b (bval : Bool)
  | n (nval : Nat)
  | s (sval : String)
deriving DecidableEq

/-- Field lookup in a JSON object. -/
def jsonLookup (fields : List (String × JVal)) (key : String) : Option JVal :=
  (fields.find? (fun p => p.1 == key)).map (fun p => p.2)

/-- The `RELOAD_ROUTING_CONFIG` handler of `auth-proxy-sw.js` (lines
245-262): runs `loadRoutingConfig()` — which resolves even when the fetch
fails, after installing the fallback — then posts
`{success: true, rules: routingRules.length}` on the reply port.  The
`catch` branch posting `{success: false, error}` is unreachable because
`loadRoutingConfig` absorbs its own failures. -/
def authHandleReloadMessage (current : List RoutingRule)
    (outcome : ConfigFetchOutcome) : List RoutingRule × List (String × JVal) :=
  let newRules := authReloadStep current outcome
  (newRules, [("success", .b true), ("rules", .n newRules.length)])

/-- The `RELOAD_ROUTING_CONFIG` handler of `api-proxy-sw.js` (lines
292-307): `fetch(...).then(r => r.json()).then(install).catch(fail)`.
There is no `response.ok` check, so any body that parses is installed; a
parse failure or network rejection leaves `routingRules` untouched and
posts `{success: false, error}`. -/
def apiHandleReloadMessage (current : List RoutingRule)
    (outcome : ConfigFetchOutcome) : List RoutingRule × List (String × JVal) :=
  match outcome with
  | .success _ rules => (rules, [("success", .b true), ("rules", .n rules.length)])
  | .malformed _ msg => (current, [("success", .b false), ("error", .s msg)])
  | .netError msg => (current, [("success", .b false), ("error", .s msg)])

/-- Lifecycle states of the interception agent. -/
inductive AgentState where
  | uninitialized
  | loading
  | ready (table : List RoutingRule)
deriving DecidableEq

/-- Activation of `auth-proxy-sw.js`: `initializeConfig` then
`loadRoutingConfig`; the worker then serves fetches with the installed
table. -/
def activateAuth (outcome : ConfigFetchOutcome) : AgentState :=
  .ready (loadRoutingConfigAuth outcome)

/-- Whether the config fetch counts as failed for the loaders: anything
but an ok response with a parsed body. -/
def configFetchFailed : ConfigFetchOutcome → Bool
  | .success true _ => false
  | _ => true

/-- C5: an initial config load whose fetch fails (non-2xx status such as
HTTP 500, network error, or malformed JSON) installs the small hardcoded
default routing table, and the agent becomes ready with a usable
(non-absent) table. -/
theorem failed_load_installs_fallback (outcome : ConfigFetchOutcome)
    (h : configFetchFailed outcome = true) :
    loadRoutingConfigAuth outcome = fallbackRulesAuth ∧
    activateAuth outcome = .ready fallbackRulesAuth ∧
    fallbackRulesAuth ≠ [] := by
  have hload : loadRoutingConfigAuth outcome = fallbackRulesAuth := by
    cases outcome with
    | success ok rules =>
      cases ok with
      | true => simp [configFetchFailed] at h
      | false => rfl
    | malformed ok msg => rfl
    | netError msg => rfl
  exact ⟨hload, by simp [activateAuth, hload], by decide⟩

theorem failed_load_installs_fallback_witness :
    configFetchFailed (.success false []) = true ∧
    loadRoutingConfigAuth (.success false []) = fallbackRulesAuth ∧
    activateAuth (.success false []) = .ready fallbackRulesAuth ∧
    fallbackRulesAuth ≠ [] :=
  have h := failed_load_installs_fallback (.success false []) (by decide)
  ⟨by decide, h.1, h.2.1, h.2.2⟩

/-- C4 counterexample: in the auth worker a failed reload does not leave
the previously installed table in place: with previous table
`[{domain:"example.com", authType:2}]` and a reload failing with a network
error, the handler installs the hardcoded fallback table instead. -/
theorem failed_reload_replaces_table_counterexample :
    authReloadStep [{ domain := "example.com", authType := 2 }]
        (.netError "Failed to fetch")
      ≠ [{ domain := "example.com", authType := 2 }] := by decide

/-- C4 amended: a failed reload never partially updates the table, but the
two workers differ: the api worker's message handler keeps the previous
table unchanged on any failure (stale-but-available) and installs the
parsed table whole on success, while the auth worker's reload handler
replaces the table with the hardcoded fallback on failure. -/
theorem reload_failure_table_policy (current rules : List RoutingRule)
    (p : Bool) (msg : String) :
    (apiHandleReloadMessage current (.malformed p msg)).1 = current ∧
    (apiHandleReloadMessage current (.netError msg)).1 = current ∧
    (apiHandleReloadMessage current (.success p rules)).1 = rules ∧
    authReloadStep current (.malformed p msg) = fallbackRulesAuth ∧
    authReloadStep current (.netError msg) = fallbackRulesAuth ∧
    authReloadStep current (.success false rules) = fallbackRulesAuth ∧
    authReloadStep current (.success true rules) = rules :=
  ⟨rfl, rfl, rfl, rfl, rfl, rfl, rfl⟩

/-- C9 counterexample: the success reply carries the rule count under the
field name `rules`, not `ruleCount`: for a successful reload installing
one rule, neither worker's reply has a `ruleCount` field, while `rules`
holds the count. -/
theorem reload_reply_field_name_counterexample :
    jsonLookup (authHandleReloadMessage []
        (.success true [{ domain := "a.com", authType := 2 }])).2 "ruleCount" = none ∧
    jsonLookup (apiHandleReloadMessage []
        (.success true [{ domain := "a.com", authType := 2 }])).2 "ruleCount" = none ∧
    jsonLookup (authHandleReloadMessage []
        (.success true [{ domain := "a.com", authType := 2 }])).2 "rules"
      = some (.n 1) ∧
    jsonLookup (apiHandleReloadMessage []
        (.success true [{ domain := "a.com", authType := 2 }])).2 "rules"
      = some (.n 1) := by decide

/-- C9 amended: the `RELOAD_ROUTING_CONFIG` handler invokes the reload and
replies on the same message's reply port with `{success: true, rules}` —
`rules` being the number of rules in the installed table — when the reload
settles successfully, or `{success: false, error}` when it fails; the auth
worker's reload absorbs fetch failures into the fallback table and so
always replies success with the installed count. -/
theorem reload_message_reply (current : List RoutingRule)
    (outcome : ConfigFetchOutcome) :
    ((authHandleReloadMessage current outcome).2
      = [("success", .b true),
         ("rules", .n (authHandleReloadMessage current outcome).1.length)]) ∧
    (∀ ok rules, outcome = .success ok rules →
      apiHandleReloadMessage current outcome
        = (rules, [("success", .b true), ("rules", .n rules.length)])) ∧
    (∀ ok msg, outcome = .malformed ok msg →
      apiHandleReloadMessage current outcome
        = (current, [("success", .b false), ("error", .s msg)])) ∧
    (∀ msg, outcome = .netError msg →
      apiHandleReloadMessage current outcome
        = (current, [("success", .b false), ("error", .s msg)])) := by
  refine ⟨rfl, ?_, ?_, ?_⟩
  · intro ok rules h
    subst h
    rfl
  · intro ok msg h
    subst h
    rfl
  · intro msg h
    subst h
    rfl

theorem reload_message_reply_witness :
    apiHandleReloadMessage fallbackRulesApi (.netError "boom")
      = (fallbackRulesApi, [("success", JVal.b false), ("error", JVal.s "boom")]) :=
  (reload_message_reply fallbackRulesApi (.netError "boom")).2.2.2 "boom" rfl

/-! ## Response handling of the forwarder -/

/-- Body of a synthesized or proxied response. -/
inductive ResponseBody where
  | json (fields : List (String × JVal))
  | text (content : String)
deriving DecidableEq

/-- A response as the fetch listener returns it to the caller. -/
structure SWResponse where
  status : Nat
  statusText : String
  headers : List (String × String)
  body : ResponseBody
deriving DecidableEq

/-- JavaScript `s.split(sep)` for a one-character separator, on character
lists (accumulating the current field). -/
def splitChar (sep : Char) : List Char → List Char → List (List Char)
  | [], cur => [cur.reverse]
  | c :: rest, cur =>
    if c == sep then cur.reverse :: splitChar sep rest []
    else splitChar sep rest (c :: cur)

/-- JavaScript `s.split(sep)` for a one-character separator. -/
def jsSplit (s : String) (sep : Char) : List String :=
  (splitChar sep s.data []).map String.mk

/-- The login URL hint of `auth-proxy-sw.js` line 193:
`https:// + config.proxyWorkerUrl.split('/')[2]`. -/
def loginUrlOf (workerUrl : String) : String :=
  "https://" ++ (jsSplit workerUrl '/').getD 2 ""

/-- The 401/403 handling of `auth-proxy-sw.js` (lines 178-202): when the
proxy responds 401 or 403, return it verbatim if it carries a `Location`
redirect, else synthesize a 401 JSON response with `error`, `message` and
`loginUrl` fields; all other statuses are returned verbatim. -/
def handleProxyResponseAuth (swOrigin : String) (resp : SWResponse) : SWResponse :=
  if resp.status == 401 || resp.status == 403 then
    match headersGet resp.headers "Location" with
    | some _ => resp
    | none =>
      { status := 401
        statusText := "Authentication Required"
        headers := [("content-type", "application/json"),
                    ("access-control-allow-origin", swOrigin)]
        body := .json [("error", .s "Authentication required"),
                       ("message", .s "Please authenticate with CF Access"),
                       ("loginUrl", .s (loginUrlOf proxyWorkerUrl))] }
  else resp

/-- C7: a proxy response with status 401 or 403 is recognized as an
authentication-required condition, and when no redirect `Location` is
supplied it is translated into a structured JSON error response with
status 401 whose body carries `error` and `message` fields and a
`loginUrl` hint. -/
theorem auth_required_translated (swOrigin : String) (resp : SWResponse)
    (hstatus : resp.status = 401 ∨ resp.status = 403)
    (hloc : headersGet resp.headers "Location" = none) :
    (handleProxyResponseAuth swOrigin resp).status = 401 ∧
    (handleProxyResponseAuth swOrigin resp).body
      = .json [("error", .s "Authentication required"),
               ("message", .s "Please authenticate with CF Access"),
               ("loginUrl", .s "https://api.simplesalt.company")] ∧
    (jsonLookup [("error", .s "Authentication required"),
        ("message", .s "Please authenticate with CF Access"),
        ("loginUrl", .s "https://api.simplesalt.company")] "error").isSome = true ∧
    (jsonLookup [("error", .s "Authentication required"),
        ("message", .s "Please authenticate with CF Access"),
        ("loginUrl", .s "https://api.simplesalt.company")] "message").isSome = true ∧
    jsonLookup [("error", .s "Authentication required"),
        ("message", .s "Please authenticate with CF Access"),
        ("loginUrl", .s "https://api.simplesalt.company")] "loginUrl"
      = some (.s "https://api.simplesalt.company") := by
  have hcond : (resp.status == 401 || resp.status == 403) = true := by
    rcases hstatus with h | h <;> simp [h]
  have hlogin : loginUrlOf proxyWorkerUrl = "https://api.simplesalt.company" := by decide
  refine ⟨?_, ?_, by decide, by decide, by decide⟩
  · simp [handleProxyResponseAuth, hcond, hloc]
  · simp [handleProxyResponseAuth, hcond, hloc, hlogin]

theorem auth_required_translated_witness :
    (handleProxyResponseAuth "https://apps.simplesalt.company"
      { status := 403, statusText := "Forbidden", headers := [],
        body := .text "denied" }).status = 401 :=
  (auth_required_translated "https://apps.simplesalt.company"
    { status := 403, statusText := "Forbidden", headers := [],
      body := .text "denied" }
    (Or.inr rfl) (by decide)).1

/-- A JavaScript exception as observed by the catch block. -/
structure JSError where
  name : String
  msg : String
deriving DecidableEq

/-- The catch block of the fetch listener of `auth-proxy-sw.js` (lines
207-238): a `TypeError` whose message mentions `fetch` (the browser shape
of a low-level network failure reaching the proxy) synthesizes a 503 JSON
response; any other error falls back to issuing the original, unmodified
request directly, and when that also fails a plain-text 503 is returned. -/
def handleForwardErrorAuth (swOrigin : String) (e : JSError)
    (directOutcome : Option SWResponse) : SWResponse :=
  if e.name == "TypeError" && isSubstr "fetch".data e.msg.data then
    { status := 503
      statusText := "Service Unavailable"
      headers := [("content-type", "application/json"),
                  ("access-control-allow-origin", swOrigin)]
      body := .json [("error", .s "Proxy service unavailable"),
                     ("message", .s "The authentication proxy is not available"),
                     ("workerUrl", .s proxyWorkerUrl)] }
  else
    match directOutcome with
    | some r => r
    | none =>
      { status := 503
        statusText := "Service Unavailable"
        headers := []
        body := .text "Service temporarily unavailable" }

/-- C8: when the proxy endpoint is unreachable (a low-level transport
error, surfacing as a `TypeError` mentioning `fetch`), the caller receives
a synthesized 503 response whose JSON body contains an `error` field —
never an unhandled exception; for other forwarding errors the handler
falls back to issuing the original, unmodified request directly. -/
theorem proxy_unreachable_503 (swOrigin : String) (e : JSError)
    (directOutcome : Option SWResponse)
    (hname : e.name = "TypeError")
    (hmsg : isSubstr "fetch".data e.msg.data = true) :
    (handleForwardErrorAuth swOrigin e directOutcome).status = 503 ∧
    (∃ fields, (handleForwardErrorAuth swOrigin e directOutcome).body = .json fields ∧
      jsonLookup fields "error" = some (.s "Proxy service unavailable")) ∧
    (∀ e' : JSError, ∀ r : SWResponse, e'.name ≠ "TypeError" →
      handleForwardErrorAuth swOrigin e' (some r) = r) := by
  have hcond : (e.name == "TypeError" && isSubstr "fetch".data e.msg.data) = true := by
    simp [hname, hmsg]
  refine ⟨?_, ?_, ?_⟩
  · simp [handleForwardErrorAuth, hcond]
  · refine ⟨[("error", .s "Proxy service unavailable"),
      ("message", .s "The authentication proxy is not available"),
      ("workerUrl", .s proxyWorkerUrl)], ?_, by decide⟩
    simp [handleForwardErrorAuth, hcond]
  · intro e' r hne
    have hcond' : (e'.name == "TypeError" && isSubstr "fetch".data e'.msg.data) = false := by
      simp [hne]
    simp [handleForwardErrorAuth, hcond']

theorem proxy_unreachable_503_witness :
    (handleForwardErrorAuth "https://apps.simplesalt.company"
      { name := "TypeError", msg := "Failed to fetch" } none).status = 503 :=
  (proxy_unreachable_503 "https://apps.simplesalt.company"
    { name := "TypeError", msg := "Failed to fetch" } none rfl (by decide)).1

/-! ## Credential resolver of `api-proxy-sw.js` -/

/-- The main-thread round trip of `getCFAccessToken` (method 1): the reply
promise races the message-channel answer against `setTimeout(() =>
resolve(null), 2000)`; a reply arriving at or after 2000 ms loses the race
and the step resolves to null.  `reply` carries the arrival time in
milliseconds and the token the page posted (`event.data.cfToken || null`),
or `none` when no reply ever arrives. -/
def cfTokenRoundTrip (reply : Option (Nat × Option String)) : Option String :=
  match reply with
  | some (t, tok) => if t < 2000 then tok else none
  | none => none

/-- The cookie recognizer of `getCFAccessToken` (method 2):
`c.name === 'CF_Authorization' || c.name.includes('cf_clearance') ||
 c.name.includes('__cf_bm')`. -/
def isRecognizedCFCookie (name : String) : Bool :=
  name == "CF_Authorization"
    || isSubstr "cf_clearance".data name.data
    || isSubstr "__cf_bm".data name.data

/-- `getCFAccessToken` of `api-proxy-sw.js` (lines 235-289): try the
main-thread round trip when a client exists, then the ambient cookie store
(`none` when the `cookieStore` API is unavailable), else no token. -/
def getCFAccessTokenApi (clientCount : Nat) (reply : Option (Nat × Option String))
    (cookieStore : Option (List (String × String))) : Option String :=
  let m1 : Option String := if clientCount > 0 then cfTokenRoundTrip reply else none
  match m1 with
  | some tok => some tok
  | none =>
    match cookieStore with
    | some cookies =>
      match cookies.find? (fun c => isRecognizedCFCookie c.1) with
      | some c => some c.2
      | none => none
    | none => none

/-- JavaScript `s.replace(pat, repl)` with a string pattern: replace the
first occurrence only. -/
def replaceFirstAux (pat repl : List Char) : List Char → List Char
  | [] => if pat.isEmpty then repl else []
  | c :: rest =>
    if pat.isPrefixOf (c :: rest) then repl ++ (c :: rest).drop pat.length
    else c :: replaceFirstAux pat repl rest

/-- JavaScript `s.replace(pat, repl)` (first occurrence). -/
def jsReplaceFirst (s pat repl : String) : String :=
  String.mk (replaceFirstAux pat.data repl.data s.data)

/-- Header construction of `api-proxy-sw.js` (lines 146-173): like the
auth worker's, plus `X-CF-Access-Token` when a token was resolved, then
`Origin` and `X-Forwarded-For` (the origin with `https://` stripped). -/
def buildProxyHeadersApi (swOrigin : String) (r : RoutingRule)
    (originalUrl : String) (cfToken : Option String)
    (orig : List (String × String)) : List (String × String) :=
  let copied := copySafeHeaders orig
  let h1 := headersSet copied "X-Original-URL" originalUrl
  let h2 := headersSet h1 "X-Auth-Type" (toString r.authType)
  let h3 :=
    match r.secretName with
    | some s => headersSet h2 "X-Secret-Name" s
    | none => h2
  let h4 :=
    match cfToken with
    | some tok => headersSet h3 "X-CF-Access-Token" tok
    | none => h3
  let h5 := headersSet h4 "Origin" swOrigin
  headersSet h5 "X-Forwarded-For" (jsReplaceFirst swOrigin "https://" "")

/-- C6 amended: when the cross-context round trip receives no reply within
the 2000 ms timeout budget, the round-trip step resolves to none (instead
of hanging); the resolver then falls through to the cookie lookup, and
when the cookie store holds no recognized CF cookie, the whole resolution
returns none and a forwarded request built after the timeout carries no
`X-CF-Access-Token` credential assertion header. -/
theorem credential_timeout_resolves_none (clientCount : Nat)
    (reply : Option (Nat × Option String))
    (cookieStore : Option (List (String × String)))
    (swOrigin originalUrl : String) (r : RoutingRule)
    (orig : List (String × String))
    (hreply : ∀ t tok, reply = some (t, tok) → 2000 ≤ t)
    (hcookie : ∀ cookies, cookieStore = some cookies →
      cookies.find? (fun c => isRecognizedCFCookie c.1) = none) :
    cfTokenRoundTrip reply = none ∧
    getCFAccessTokenApi clientCount reply cookieStore = none ∧
    headersGet (buildProxyHeadersApi swOrigin r originalUrl
        (getCFAccessTokenApi clientCount reply cookieStore) orig)
      "X-CF-Access-Token" = none := by
  have h1 : cfTokenRoundTrip reply = none := by
    cases reply with
    | none => rfl
    | some p =>
      obtain ⟨t, tok⟩ := p
      have ht := hreply t tok rfl
      simp only [cfTokenRoundTrip]
      rw [if_neg (Nat.not_lt.mpr ht)]
  have h2 : getCFAccessTokenApi clientCount reply cookieStore = none := by
    unfold getCFAccessTokenApi
    have hm1 : (if clientCount > 0 then cfTokenRoundTrip reply else none)
        = (none : Option String) := by
      split
      · exact h1
      · rfl
    rw [hm1]
    cases cookieStore with
    | none => rfl
    | some cookies =>
      have hfind := hcookie cookies rfl
      simp [hfind]
  refine ⟨h1, h2, ?_⟩
  rw [h2]
  cases hsec : r.secretName with
  | none =>
    simp only [buildProxyHeadersApi, hsec]
    rw [headersGet_set_other _ _ _ _ (by decide),
      headersGet_set_other _ _ _ _ (by decide),
      headersGet_set_other _ _ _ _ (by decide),
      headersGet_set_other _ _ _ _ (by decide)]
    exact headersGet_copySafeHeaders_unsafe orig _ (by decide)
  | some s =>
    simp only [buildProxyHeadersApi, hsec]
    rw [headersGet_set_other _ _ _ _ (by decide),
      headersGet_set_other _ _ _ _ (by decide),
      headersGet_set_other _ _ _ _ (by decide),
      headersGet_set_other _ _ _ _ (by decide),
      headersGet_set_other _ _ _ _ (by decide)]
    exact headersGet_copySafeHeaders_unsafe orig _ (by decide)

theorem credential_timeout_resolves_none_witness :
    getCFAccessTokenApi 1 none (some [("theme", "dark")]) = none :=
  (credential_timeout_resolves_none 1 none (some [("theme", "dark")])
    "https://apps.simplesalt.company" "https://api.hubapi.com/y"
    { domain := "api.hubapi.com", authType := 2 } []
    (by intro t tok h; exact Option.noConfusion h)
    (by intro cookies h; injection h with h'; rw [← h']; decide)).2.1

/-- C6 counterexample: a resolver invocation whose round trip receives no
reply within the 2-second budget does not necessarily resolve to "no
credential": with a `CF_Authorization` cookie in the ambient store,
resolution returns that cookie's value, and the forwarded request does
carry the assertion header. -/
theorem credential_timeout_cookie_counterexample :
    getCFAccessTokenApi 1 none (some [("CF_Authorization", "tok")]) = some "tok" ∧
    headersGet (buildProxyHeadersApi "https://studio.plasmic.app"
        { domain := "api.hubapi.com", authType := 2 } "https://api.hubapi.com/y"
        (getCFAccessTokenApi 1 none (some [("CF_Authorization", "tok")])) [])
      "X-CF-Access-Token" = some "tok" := by decide
